import Mathlib

/-!
Shallow embedding of `include/swift/SIL/SILValue.h`: the `SILValue` result
handle, the intrusive use-list maintained by `Operand`
(`insertIntoCurrent` / `removeFromCurrent` / `set` / destruction), the
unfiltered (`ValueBaseUseIterator`) and result-filtered (`ValueUseIterator`)
use iterators, the `TailAllocatedOperandList` sizing queries, and the
`DenseMapInfo` hashing adapter.

Memory is modelled explicitly: `ValueBase` objects and `Operand` objects
live at abstract natural-number addresses, and the mutable fields
(`ValueBase::FirstUse`, `Operand::NextUse`, `Operand::Back`,
`Operand::TheValue`) are kept in a `SILState` holding finite association
lists keyed by address.  The `Back` field of an operand is the address of a
pointer slot (either a value's `FirstUse` slot or another operand's
`NextUse` field), modelled by the inductive `BackRef`.  Each C++ member
function becomes a state-transforming Lean function that performs the same
field reads and writes in the same order as the source.
-/

namespace SILModel

/-- Lookup in an association list keyed by addresses (first match wins). -/
def alookup {β : Type} (k : Nat) : List (Nat × β) → Option β
  | [] => none
  | (k1, v) :: rest => if k = k1 then some v else alookup k rest

/-- Store a value at key `k`, replacing the first existing entry or appending. -/
def aset {β : Type} (k : Nat) (v : β) : List (Nat × β) → List (Nat × β)
  | [] => [(k, v)]
  | (k1, v1) :: rest => if k = k1 then (k, v) :: rest else (k1, v1) :: aset k v rest

/-- Apply `f` to the entry at key `k`, if present. -/
def aupdate {β : Type} (k : Nat) (f : β → β) : List (Nat × β) → List (Nat × β)
  | [] => []
  | (k1, v1) :: rest => if k = k1 then (k1, f v1) :: rest else (k1, v1) :: aupdate k f rest

/-- Remove the first entry at key `k`, if present. -/
def aerase {β : Type} (k : Nat) : List (Nat × β) → List (Nat × β)
  | [] => []
  | (k1, v1) :: rest => if k = k1 then rest else (k1, v1) :: aerase k rest

/-- The number of bits required to store a ResultNumber
(`enum { ValueResultNumberBits = 1 }` in the source). -/
def ValueResultNumberBits : Nat := 1

/-- Model of `swift::SILValue`: the pair of a `ValueBase*` and a result number,
packed in the source into an `llvm::PointerIntPair<ValueBase*, 1>`.
`valueAddr` is the abstract address of the `ValueBase` (`0` plays `nullptr`);
`resultNumber` is the integer handed to the constructor, of which only the
low `ValueResultNumberBits` bits are representable in the packed storage. -/
structure SILValue where
  valueAddr : Nat
  resultNumber : Nat
deriving Repr, DecidableEq

/-- Model of `SILValue::getDef`: the pointer half of the pair. -/
def SILValue.getDef (v : SILValue) : Nat := v.valueAddr

/-- Model of `SILValue::getResultNumber`: the integer half of the pair, which
physically holds only `ValueResultNumberBits` bits. -/
def SILValue.getResultNumber (v : SILValue) : Nat :=
  v.resultNumber % 2 ^ ValueResultNumberBits

/-- Model of `SILValue::getOpaqueValue`: the packed word of the
`PointerIntPair`.  `ValueBase` pointers are aligned, leaving the low bit
free, so the packed word is ordered first by pointer address and then by
the stored result bit; with abstract addresses this packing is
`2 * address + storedResultBit`. -/
def SILValue.getOpaqueValue (v : SILValue) : Nat :=
  2 * v.valueAddr + v.getResultNumber

/-- Model of `SILValue::operator==`: compares the packed words
(`ValueAndResultNumber == RHS.ValueAndResultNumber`). -/
def SILValue.beq (a b : SILValue) : Bool :=
  a.getOpaqueValue == b.getOpaqueValue

/-- Model of `SILValue::operator<`: compares the packed words
(`getOpaqueValue() < RHS.getOpaqueValue()`). -/
def SILValue.lt (a b : SILValue) : Bool :=
  a.getOpaqueValue < b.getOpaqueValue

/-- Model of the checked constructor `SILValue(const ValueBase *V, unsigned
ResultNumber)`: stores the pair and then runs
`assert(ResultNumber == getResultNumber() && "Overflow")`.  `none` models
the assertion firing. -/
def SILValue.construct (V : Nat) (ResultNumber : Nat) : Option SILValue :=
  let v : SILValue := ⟨V, ResultNumber⟩
  if ResultNumber = v.getResultNumber then some v else none

/-- Address of a pointer slot that can hold an `Operand*`: either a value's
`FirstUse` field or an operand's `NextUse` field.  This is what the
`Operand::Back` field (an `Operand**`) points at. -/
inductive BackRef where
  | firstUse (value : Nat)
  | nextUse (op : Nat)
deriving Repr, DecidableEq

/-- The mutable fields of a live `swift::Operand`. -/
structure OperandData where
  theValue : SILValue
  nextUse : Option Nat
  back : Option BackRef
  owner : Nat
deriving Repr, DecidableEq

/-- The mutable heap: per `ValueBase` address its `FirstUse` field, and per
`Operand` address its fields.  An absent operand entry is unallocated (or
destroyed) memory. -/
structure SILState where
  firstUse : List (Nat × Option Nat)
  operands : List (Nat × OperandData)
deriving Repr, DecidableEq

def emptyState : SILState := ⟨[], []⟩

/-- Read a value's `FirstUse` field. -/
def lookupFirstUse (s : SILState) (v : Nat) : Option Nat :=
  (alookup v s.firstUse).getD none

/-- Read a live operand's fields. -/
def lookupOp (s : SILState) (o : Nat) : Option OperandData :=
  alookup o s.operands

/-- Read an operand's `NextUse` field (traversal step of the use list). -/
def nextOf (s : SILState) (o : Nat) : Option Nat :=
  (lookupOp s o).bind (fun od => od.nextUse)

/-- Read `o->get().getResultNumber()`. -/
def resultOf (s : SILState) (o : Nat) : Nat :=
  ((lookupOp s o).map (fun od => od.theValue.getResultNumber)).getD 0

/-- Dereference a `BackRef` slot: the `Operand*` currently stored in it
(`*Back` in the source). -/
def readSlot (s : SILState) : BackRef → Option Nat
  | BackRef.firstUse v => lookupFirstUse s v
  | BackRef.nextUse p => nextOf s p

/-- Write a value's `FirstUse` field. -/
def setFirstUse (s : SILState) (v : Nat) (o : Option Nat) : SILState :=
  { s with firstUse := aset v o s.firstUse }

/-- Write an operand's `NextUse` field. -/
def setOpNext (s : SILState) (o : Nat) (n : Option Nat) : SILState :=
  { s with operands := aupdate o (fun od => { od with nextUse := n }) s.operands }

/-- Write an operand's `Back` field. -/
def setOpBack (s : SILState) (o : Nat) (b : Option BackRef) : SILState :=
  { s with operands := aupdate o (fun od => { od with back := b }) s.operands }

/-- Write an operand's `TheValue` field. -/
def setOpValue (s : SILState) (o : Nat) (v : SILValue) : SILState :=
  { s with operands := aupdate o (fun od => { od with theValue := v }) s.operands }

/-- Model of the `ValueBase` constructor's effect on the use machinery: the
`FirstUse` field starts as `nullptr`. -/
def mkValue (s : SILState) (v : Nat) : SILState :=
  setFirstUse s v none

/-- Model of `Operand::insertIntoCurrent`, statement by statement:
`Back = &TheValue->FirstUse; NextUse = TheValue->FirstUse;
if (NextUse) NextUse->Back = &NextUse; TheValue->FirstUse = this;`. -/
def Operand.insertIntoCurrent (s : SILState) (o : Nat) : SILState :=
  match lookupOp s o with
  | none => s
  | some od =>
    let v := od.theValue.getDef
    let s1 := setOpBack s o (some (BackRef.firstUse v))
    let s2 := setOpNext s1 o (lookupFirstUse s1 v)
    let s3 := match nextOf s2 o with
      | some n => setOpBack s2 n (some (BackRef.nextUse o))
      | none => s2
    setFirstUse s3 v (some o)

/-- Model of `Operand::removeFromCurrent`, statement by statement:
`if (!Back) return; (*Back)->NextUse = NextUse;
if (NextUse) NextUse->Back = Back;`.  Note that the source writes the
`NextUse` field of the operand that `*Back` points to; it does not store
into the slot `*Back` itself. -/
def Operand.removeFromCurrent (s : SILState) (o : Nat) : SILState :=
  match lookupOp s o with
  | none => s
  | some od =>
    match od.back with
    | none => s
    | some b =>
      let s1 := match readSlot s b with
        | some t => setOpNext s t od.nextUse
        | none => s
      match nextOf s1 o with
      | some n => setOpBack s1 n (some b)
      | none => s1

/-- Model of `Operand::set`: `removeFromCurrent(); TheValue = newValue;
insertIntoCurrent();`. -/
def Operand.set (s : SILState) (o : Nat) (newValue : SILValue) : SILState :=
  let s1 := Operand.removeFromCurrent s o
  let s2 := setOpValue s1 o newValue
  Operand.insertIntoCurrent s2 o

/-- Model of the constructor `Operand(ValueBase *owner, SILValue theValue)`:
the fields are initialized (`NextUse`/`Back` null) and the operand is
linked by `insertIntoCurrent()`.  `o` is the fresh address the operand is
constructed at. -/
def Operand.construct (s : SILState) (o : Nat) (owner : Nat) (theValue : SILValue) :
    SILState :=
  let s1 : SILState := { s with operands := aset o ⟨theValue, none, none, owner⟩ s.operands }
  Operand.insertIntoCurrent s1 o

/-- Model of the destructor `~Operand()`: `removeFromCurrent()` and then the
operand's storage dies. -/
def Operand.destroy (s : SILState) (o : Nat) : SILState :=
  let s1 := Operand.removeFromCurrent s o
  { s1 with operands := aerase o s1.operands }

/-- Model of `Operand::get`: the current `TheValue` field (`none` when the
operand is not live). -/
def Operand.get (s : SILState) (o : Nat) : Option SILValue :=
  (lookupOp s o).map (fun od => od.theValue)

/-- Model of `ValueBase::use_empty`: `FirstUse == nullptr`. -/
def ValueBase.use_empty (s : SILState) (v : Nat) : Bool :=
  (lookupFirstUse s v).isNone

/-- The sequence of operands yielded by `ValueBaseUseIterator` from cursor
`cur` (follow `NextUse` until null), fuel-bounded. -/
def useListFrom (s : SILState) : Nat → Option Nat → List Nat
  | _, none => []
  | 0, some _ => []
  | fuel + 1, some o => o :: useListFrom s fuel (nextOf s o)

/-- Model of `swift::ValueUseIterator`: an `llvm::PointerIntPair` of the
cursor `Operand*` and the result number being filtered for
(`CurAndResultNumber`). -/
structure ValueUseIterator where
  cur : Option Nat
  resultNumber : Nat
deriving Repr, DecidableEq

/-- The skip loop shared by the `ValueUseIterator` constructor and
`operator++`: `while (cur && cur->get().getResultNumber() != resultNumber)
cur = cur->NextUse;`, fuel-bounded (`none` models divergence on a
corrupted cyclic list, which the source would loop on forever). -/
def skipToMatch (s : SILState) (r : Nat) : Nat → Option Nat → Option Nat
  | _, none => none
  | 0, some _ => none
  | fuel + 1, some o =>
    if resultOf s o == r then some o else skipToMatch s r fuel (nextOf s o)

/-- Model of the constructor `ValueUseIterator(Operand *cur, unsigned
resultNumber)`: skip past uses with different result numbers, then store
the cursor and the result number. -/
def ValueUseIterator.construct (s : SILState) (fuel : Nat) (cur : Option Nat)
    (resultNumber : Nat) : ValueUseIterator :=
  ⟨skipToMatch s resultNumber fuel cur, resultNumber⟩

/-- Model of `ValueUseIterator::operator++`: step to `NextUse` and keep
stepping while the result number disagrees.  Incrementing the terminal
iterator is an assertion failure in the source; the model leaves it fixed. -/
def ValueUseIterator.inc (s : SILState) (fuel : Nat) (it : ValueUseIterator) :
    ValueUseIterator :=
  match it.cur with
  | none => it
  | some o => ⟨skipToMatch s it.resultNumber fuel (nextOf s o), it.resultNumber⟩

/-- Model of `operator==(ValueUseIterator, ValueUseIterator)`: compares only
the cursor pointers (`lhs.CurAndResultNumber.getPointer() ==
rhs.CurAndResultNumber.getPointer()`), not the stored result numbers. -/
def ValueUseIterator.beq (a b : ValueUseIterator) : Bool :=
  a.cur == b.cur

/-- The sequence of operands yielded by iterating a `ValueUseIterator`:
every operand of the chain whose result number matches, in chain order
(fuel-bounded like `useListFrom`). -/
def filteredUseListFrom (s : SILState) (r : Nat) : Nat → Option Nat → List Nat
  | _, none => []
  | 0, some _ => []
  | fuel + 1, some o =>
    if resultOf s o == r then o :: filteredUseListFrom s r fuel (nextOf s o)
    else filteredUseListFrom s r fuel (nextOf s o)

/-- Model of `SILValue::use_begin`:
`ValueUseIterator((*this)->FirstUse, getResultNumber())`. -/
def SILValue.use_begin (s : SILState) (fuel : Nat) (v : SILValue) : ValueUseIterator :=
  ValueUseIterator.construct s fuel (lookupFirstUse s v.getDef) v.getResultNumber

/-- Model of `SILValue::use_end`: `ValueUseIterator(nullptr, 0)`. -/
def SILValue.use_end (s : SILState) (fuel : Nat) : ValueUseIterator :=
  ValueUseIterator.construct s fuel none 0

/-- Model of `SILValue::use_empty`: `use_begin() == use_end()`. -/
def SILValue.use_empty (s : SILState) (fuel : Nat) (v : SILValue) : Bool :=
  ValueUseIterator.beq (SILValue.use_begin s fuel v) (SILValue.use_end s fuel)

/-- Size in bytes of a `swift::Operand` on the modelled 64-bit host: four
pointer-sized fields (`TheValue`, `NextUse`, `Back`, `Owner`). -/
def sizeofOperand : Nat := 32

/-- Model of the general `TailAllocatedOperandList<N>::getExtraSize`:
`sizeof(Operand) * numExtra`. -/
def TailAllocatedOperandList.getExtraSize (numExtra : Nat) : Nat :=
  sizeofOperand * numExtra

/-- Model of the zero-static-operand specialization
`TailAllocatedOperandList<0>::getExtraSize`:
`sizeof(Operand) * (numExtra > 0 ? numExtra - 1 : 0)`. -/
def TailAllocatedOperandList0.getExtraSize (numExtra : Nat) : Nat :=
  sizeofOperand * (if numExtra > 0 then numExtra - 1 else 0)

/-- Model of `llvm::DenseMapInfo<ValueBase*>::getHashValue` applied to a
pointer word: `(unsigned(Val) >> 4) ^ (unsigned(Val) >> 9)`. -/
def denseMapPointerHash (p : Nat) : Nat :=
  (p / 2 ^ 4) ^^^ (p / 2 ^ 9)

/-- Model of `llvm::DenseMapInfo<swift::SILValue>::getHashValue`:
`DenseMapInfo<ValueBase*>::getHashValue(V.getDef())`. -/
def DenseMapInfoSILValue.getHashValue (v : SILValue) : Nat :=
  denseMapPointerHash v.getDef

/-- Model of `llvm::DenseMapInfo<swift::SILValue>::isEqual`: `LHS == RHS`. -/
def DenseMapInfoSILValue.isEqual (a b : SILValue) : Bool :=
  SILValue.beq a b

/-- Scenario state: value `V0` at address 1 with a single operand `op1` at
address 10 targeting `(V0, 0)`, owned by a user node at address 99. -/
def stateA : SILState :=
  Operand.construct (mkValue emptyState 1) 10 99 ⟨1, 0⟩

/-- Scenario state: values at addresses 1 and 2, operand 10 initially
targeting `(1, 0)` (for retargeting tests). -/
def stateA2 : SILState :=
  Operand.construct (mkValue (mkValue emptyState 1) 2) 10 99 ⟨1, 0⟩

/-- Scenario state: value `V1` at address 1, with operands `e0` (address 10)
targeting `(V1, 0)`, `e1` (address 11) targeting `(V1, 1)` and `e2`
(address 12) targeting `(V1, 0)`, constructed in that order. -/
def stateB : SILState :=
  Operand.construct
    (Operand.construct
      (Operand.construct (mkValue emptyState 1) 10 99 ⟨1, 0⟩)
      11 99 ⟨1, 1⟩)
    12 99 ⟨1, 0⟩

/-! Association-list lemmas. -/

theorem alookup_aset {β : Type} (k k1 : Nat) (v : β) (l : List (Nat × β)) :
    alookup k (aset k1 v l) = if k = k1 then some v else alookup k l := by
  induction l with
  | nil =>
    simp [aset, alookup]
  | cons hd tl ih =>
    obtain ⟨k2, v2⟩ := hd
    by_cases h1 : k1 = k2 <;> by_cases h2 : k = k2 <;> by_cases h3 : k = k1 <;>
      simp_all [aset, alookup]

theorem alookup_aupdate {β : Type} (k k1 : Nat) (f : β → β) (l : List (Nat × β)) :
    alookup k (aupdate k1 f l) = if k = k1 then (alookup k l).map f else alookup k l := by
  induction l with
  | nil =>
    simp [aupdate, alookup]
  | cons hd tl ih =>
    obtain ⟨k2, v2⟩ := hd
    by_cases h1 : k1 = k2 <;> by_cases h2 : k = k2 <;> by_cases h3 : k = k1 <;>
      simp_all [aupdate, alookup]

/-! Preservation lemmas: the use-list surgery in `removeFromCurrent` and
`insertIntoCurrent` rewrites only `NextUse` and `Back` fields, so every
operand's `TheValue` (and liveness) survives it. -/

theorem lookupOp_setFirstUse (s : SILState) (v : Nat) (f : Option Nat) (o : Nat) :
    lookupOp (setFirstUse s v f) o = lookupOp s o := rfl

theorem get_setOpNext (s : SILState) (t : Nat) (n : Option Nat) (o : Nat) :
    Operand.get (setOpNext s t n) o = Operand.get s o := by
  simp only [Operand.get, setOpNext, lookupOp, alookup_aupdate]
  by_cases h : o = t
  · subst h
    simp only [if_pos rfl]
    cases alookup o s.operands <;> rfl
  · simp only [if_neg h]

theorem get_setOpBack (s : SILState) (t : Nat) (b : Option BackRef) (o : Nat) :
    Operand.get (setOpBack s t b) o = Operand.get s o := by
  simp only [Operand.get, setOpBack, lookupOp, alookup_aupdate]
  by_cases h : o = t
  · subst h
    simp only [if_pos rfl]
    cases alookup o s.operands <;> rfl
  · simp only [if_neg h]

theorem isSome_setOpNext (s : SILState) (t : Nat) (n : Option Nat) (o : Nat) :
    (lookupOp (setOpNext s t n) o).isSome = (lookupOp s o).isSome := by
  simp only [setOpNext, lookupOp, alookup_aupdate]
  by_cases h : o = t
  · subst h
    simp only [if_pos rfl]
    cases alookup o s.operands <;> rfl
  · simp only [if_neg h]

theorem isSome_setOpBack (s : SILState) (t : Nat) (b : Option BackRef) (o : Nat) :
    (lookupOp (setOpBack s t b) o).isSome = (lookupOp s o).isSome := by
  simp only [setOpBack, lookupOp, alookup_aupdate]
  by_cases h : o = t
  · subst h
    simp only [if_pos rfl]
    cases alookup o s.operands <;> rfl
  · simp only [if_neg h]

theorem get_setFirstUse (s : SILState) (v : Nat) (f : Option Nat) (o : Nat) :
    Operand.get (setFirstUse s v f) o = Operand.get s o := rfl

theorem get_removeFromCurrent (s : SILState) (o1 o : Nat) :
    Operand.get (Operand.removeFromCurrent s o1) o = Operand.get s o := by
  unfold Operand.removeFromCurrent
  cases hod : lookupOp s o1 with
  | none => rfl
  | some od =>
    obtain ⟨tv, nu, bk, ow⟩ := od
    cases bk with
    | none => rfl
    | some b =>
      dsimp only
      cases readSlot s b with
      | none =>
        dsimp only
        cases nextOf s o1 with
        | none => rfl
        | some n => exact get_setOpBack ..
      | some t =>
        dsimp only
        cases nextOf (setOpNext s t nu) o1 with
        | none => exact get_setOpNext ..
        | some n => rw [get_setOpBack, get_setOpNext]

theorem isSome_removeFromCurrent (s : SILState) (o1 o : Nat) :
    (lookupOp (Operand.removeFromCurrent s o1) o).isSome = (lookupOp s o).isSome := by
  unfold Operand.removeFromCurrent
  cases hod : lookupOp s o1 with
  | none => rfl
  | some od =>
    obtain ⟨tv, nu, bk, ow⟩ := od
    cases bk with
    | none => rfl
    | some b =>
      dsimp only
      cases readSlot s b with
      | none =>
        dsimp only
        cases nextOf s o1 with
        | none => rfl
        | some n => exact isSome_setOpBack ..
      | some t =>
        dsimp only
        cases nextOf (setOpNext s t nu) o1 with
        | none => exact isSome_setOpNext ..
        | some n => rw [isSome_setOpBack, isSome_setOpNext]

theorem get_insertIntoCurrent (s : SILState) (o1 o : Nat) :
    Operand.get (Operand.insertIntoCurrent s o1) o = Operand.get s o := by
  unfold Operand.insertIntoCurrent
  cases hod : lookupOp s o1 with
  | none => rfl
  | some od =>
    dsimp only
    cases nextOf (setOpNext (setOpBack s o1 (some (BackRef.firstUse od.theValue.getDef)))
        o1 (lookupFirstUse (setOpBack s o1 (some (BackRef.firstUse od.theValue.getDef)))
          od.theValue.getDef)) o1 with
    | none => rw [get_setFirstUse, get_setOpNext, get_setOpBack]
    | some n => rw [get_setFirstUse, get_setOpBack, get_setOpNext, get_setOpBack]

theorem get_setOpValue_self (s : SILState) (o : Nat) (v : SILValue)
    (hlive : (lookupOp s o).isSome = true) :
    Operand.get (setOpValue s o v) o = some v := by
  simp only [Operand.get, setOpValue, lookupOp, alookup_aupdate, if_pos rfl]
  cases h : alookup o s.operands with
  | none => rw [lookupOp, h] at hlive; simp at hlive
  | some od => rfl

/-! Iterator lemmas. -/

theorem skipToMatch_none (s : SILState) (r fuel : Nat) :
    skipToMatch s r fuel none = none := by
  cases fuel <;> rfl

theorem filteredUseListFrom_eq_filter (s : SILState) (r : Nat) :
    ∀ (fuel : Nat) (cur : Option Nat),
      filteredUseListFrom s r fuel cur =
        (useListFrom s fuel cur).filter (fun o => resultOf s o == r) := by
  intro fuel
  induction fuel with
  | zero => intro cur; cases cur <;> rfl
  | succ n ih =>
    intro cur
    cases cur with
    | none => rfl
    | some o =>
      simp only [filteredUseListFrom, useListFrom, List.filter_cons]
      cases h : (resultOf s o == r) <;> simp [h, ih]

theorem skipToMatch_eq_head (s : SILState) (r : Nat) :
    ∀ (fuel : Nat) (cur : Option Nat),
      skipToMatch s r fuel cur = (filteredUseListFrom s r fuel cur).head? := by
  intro fuel
  induction fuel with
  | zero => intro cur; cases cur <;> rfl
  | succ n ih =>
    intro cur
    cases cur with
    | none => rfl
    | some o =>
      simp only [skipToMatch, filteredUseListFrom]
      cases h : (resultOf s o == r) <;> simp [h, ih]

/-! Handle ordering lemmas. -/

theorem getResultNumber_lt_two (v : SILValue) : v.getResultNumber < 2 :=
  Nat.mod_lt _ (by decide)

theorem sil_beq_iff (a b : SILValue) :
    SILValue.beq a b = true ↔
      a.getDef = b.getDef ∧ a.getResultNumber = b.getResultNumber := by
  have ha := getResultNumber_lt_two a
  have hb := getResultNumber_lt_two b
  simp only [SILValue.beq, SILValue.getOpaqueValue, SILValue.getDef, beq_iff_eq]
  omega

theorem sil_lt_iff (a b : SILValue) :
    SILValue.lt a b = true ↔
      (a.getDef < b.getDef ∨
        (a.getDef = b.getDef ∧ a.getResultNumber < b.getResultNumber)) := by
  have ha := getResultNumber_lt_two a
  have hb := getResultNumber_lt_two b
  simp only [SILValue.lt, SILValue.getOpaqueValue, SILValue.getDef, decide_eq_true_eq]
  omega

/-! The claims. -/

/-- C1: the specified unlink step (`*Back = NextUse`, then repoint
`NextUse->Back`) is NOT what the source performs: `removeFromCurrent`
writes `(*Back)->NextUse = NextUse`, i.e. it stores the forward pointer
into the `NextUse` field of the operand the slot points at (which is the
operand being removed itself), leaving the slot `*Back` untouched.  On a
value (address 1) with a single operand (address 10), removal is a
complete no-op: the value's `FirstUse` slot still addresses the operand
and the operand is still reachable by following `FirstUse`/`NextUse`,
both after a bare `removeFromCurrent` and after a retargeting `set`. -/
theorem claim_remove_unlink_bug :
    Operand.removeFromCurrent stateA 10 = stateA
    ∧ lookupFirstUse (Operand.removeFromCurrent stateA 10) 1 = some 10
    ∧ useListFrom (Operand.removeFromCurrent stateA 10) 5
        (lookupFirstUse (Operand.removeFromCurrent stateA 10) 1) = [10]
    ∧ lookupFirstUse (Operand.set stateA2 10 ⟨2, 0⟩) 1 = some 10 :=
  ⟨by decide, by decide, by decide, by decide⟩

/-- C2: while `op1` (address 10) lives, value `V0` (address 1) correctly
reports a non-empty use list and `op1.get() = (V0, 0)`; but immediately
after `op1` is destroyed, `V0`'s use list is NOT empty as the claim
requires: because `removeFromCurrent` never patches `*Back`,
`V0.FirstUse` still holds the destroyed operand's address,
`ValueBase::use_empty` returns `false`, and the operand still occurs
(once, not zero times) in the enumeration from `FirstUse`. -/
theorem claim_use_list_membership_bug :
    ValueBase.use_empty stateA 1 = false
    ∧ Operand.get stateA 10 = some ⟨1, 0⟩
    ∧ ValueBase.use_empty (Operand.destroy stateA 10) 1 = false
    ∧ (useListFrom (Operand.destroy stateA 10) 5
        (lookupFirstUse (Operand.destroy stateA 10) 1)).count 10 = 1 :=
  ⟨by decide, by decide, by decide, by decide⟩

/-- C3: for every live operand `o` and every handle `h`, immediately after
`o.set(h)` the read `o.get()` returns exactly `h` (same identity and same
result number), whatever `o` targeted before.  `set` stores `h` into
`TheValue` between the unlink and the relink, and neither `removeFromCurrent`
nor `insertIntoCurrent` writes any `TheValue` field. -/
theorem claim_set_get_round_trip (s : SILState) (o : Nat) (h : SILValue)
    (hlive : (lookupOp s o).isSome = true) :
    Operand.get (Operand.set s o h) o = some h := by
  unfold Operand.set
  rw [get_insertIntoCurrent]
  apply get_setOpValue_self
  rw [isSome_removeFromCurrent]
  exact hlive

theorem claim_set_get_round_trip_witness :
    ((lookupOp stateA2 10).isSome = true
      ∧ Operand.get (Operand.set stateA2 10 ⟨2, 1⟩) 10 = some ⟨2, 1⟩)
    ∧ Operand.get (Operand.set stateA2 10 ⟨1, 0⟩) 10 = some ⟨1, 0⟩ :=
  ⟨⟨by decide, claim_set_get_round_trip stateA2 10 ⟨2, 1⟩ (by decide)⟩,
    claim_set_get_round_trip stateA2 10 ⟨1, 0⟩ (by decide)⟩

/-- C4: the result-filtered iterator yields exactly the operands of the
unfiltered chain whose `get().getResultNumber()` matches the filter, in
the same relative order: the constructor's cursor is the head of that
filtered subsequence, `operator++` steps to the next member, and the
yielded sequence is `List.filter` of the unfiltered enumeration.  On the
scenario state (`e0` = 10 → result 0, `e1` = 11 → result 1, `e2` = 12 →
result 0, linked at the head in that order) the unfiltered list is
`[e2, e1, e0]`, filtering on result 0 yields `[e2, e0]` and filtering on
result 1 yields `[e1]`. -/
theorem claim_filtered_iteration :
    (∀ (s : SILState) (r fuel : Nat) (cur : Option Nat),
        (ValueUseIterator.construct s fuel cur r).cur =
          (filteredUseListFrom s r fuel cur).head?)
    ∧ (∀ (s : SILState) (fuel r o : Nat),
        (ValueUseIterator.inc s fuel ⟨some o, r⟩).cur =
          (filteredUseListFrom s r fuel (nextOf s o)).head?)
    ∧ (∀ (s : SILState) (r fuel : Nat) (cur : Option Nat),
        filteredUseListFrom s r fuel cur =
          (useListFrom s fuel cur).filter (fun o => resultOf s o == r))
    ∧ useListFrom stateB 5 (lookupFirstUse stateB 1) = [12, 11, 10]
    ∧ filteredUseListFrom stateB 0 5 (lookupFirstUse stateB 1) = [12, 10]
    ∧ filteredUseListFrom stateB 1 5 (lookupFirstUse stateB 1) = [11] := by
  refine ⟨?_, ?_, ?_, by decide, by decide, by decide⟩
  · intro s r fuel cur
    exact skipToMatch_eq_head s r fuel cur
  · intro s fuel r o
    exact skipToMatch_eq_head s r fuel (nextOf s o)
  · intro s r fuel cur
    exact filteredUseListFrom_eq_filter s r fuel cur

/-- C5: constructing a `SILValue` with a result number that does not fit in
`ValueResultNumberBits = 1` (i.e. `ResultNumber >= 2`) trips the
construction-time assertion (`none`), and for every in-range result number
(0 or 1) the constructed handle's `getResultNumber()` is exactly the
number passed in. -/
theorem claim_result_number_overflow :
    (∀ V r : Nat, 2 ≤ r → SILValue.construct V r = none)
    ∧ (∀ V r : Nat, r < 2 →
        SILValue.construct V r = some ⟨V, r⟩
        ∧ (⟨V, r⟩ : SILValue).getResultNumber = r) := by
  constructor
  · intro V r hr
    simp only [SILValue.construct, SILValue.getResultNumber, ValueResultNumberBits,
      pow_one]
    rw [if_neg]
    omega
  · intro V r hr
    have hm : r % 2 = r := Nat.mod_eq_of_lt hr
    constructor
    · simp [SILValue.construct, SILValue.getResultNumber, ValueResultNumberBits,
        pow_one, hm]
    · simp [SILValue.getResultNumber, ValueResultNumberBits, pow_one, hm]

theorem claim_result_number_overflow_witness :
    SILValue.construct 5 2 = none
    ∧ (SILValue.construct 5 1 = some ⟨5, 1⟩
        ∧ (⟨5, 1⟩ : SILValue).getResultNumber = 1) :=
  ⟨claim_result_number_overflow.1 5 2 (by decide),
    claim_result_number_overflow.2 5 1 (by decide)⟩

/-- C6: the general `TailAllocatedOperandList<N>::getExtraSize(k)` reports
`sizeof(Operand) * k` bytes, while the zero-static-operand specialization
reports `sizeof(Operand) * (k - 1)` for `k > 0` and `0` for `k == 0`;
together with the one-element placeholder buffer already inside the
specialization's header, the reported extra bytes cover exactly `k`
operands with no double counting. -/
theorem claim_tail_extra_size :
    (∀ k : Nat, TailAllocatedOperandList.getExtraSize k = sizeofOperand * k)
    ∧ (∀ k : Nat, 0 < k →
        TailAllocatedOperandList0.getExtraSize k = sizeofOperand * (k - 1))
    ∧ TailAllocatedOperandList0.getExtraSize 0 = 0
    ∧ (∀ k : Nat, 0 < k →
        sizeofOperand * 1 + TailAllocatedOperandList0.getExtraSize k
          = sizeofOperand * k) := by
  refine ⟨fun k => rfl, ?_, rfl, ?_⟩
  · intro k hk
    simp [TailAllocatedOperandList0.getExtraSize, hk]
  · intro k hk
    simp only [TailAllocatedOperandList0.getExtraSize, sizeofOperand, if_pos hk]
    omega

theorem claim_tail_extra_size_witness :
    TailAllocatedOperandList0.getExtraSize 3 = sizeofOperand * 2
    ∧ sizeofOperand * 1 + TailAllocatedOperandList0.getExtraSize 3
        = sizeofOperand * 3 :=
  ⟨claim_tail_extra_size.2.1 3 (by decide),
    claim_tail_extra_size.2.2.2 3 (by decide)⟩

/-- C7: two handles compare equal under `operator==` iff both the
value-identity pointer and the result number agree, and `operator<` (a
comparison of the packed opaque words) is a strict total order that
orders first by identity address and then by result number. -/
theorem claim_handle_eq_order :
    (∀ a b : SILValue, SILValue.beq a b = true ↔
        a.getDef = b.getDef ∧ a.getResultNumber = b.getResultNumber)
    ∧ (∀ a : SILValue, SILValue.lt a a = false)
    ∧ (∀ a b c : SILValue, SILValue.lt a b = true → SILValue.lt b c = true →
        SILValue.lt a c = true)
    ∧ (∀ a b : SILValue,
        SILValue.lt a b = true ∨ SILValue.beq a b = true ∨ SILValue.lt b a = true)
    ∧ (∀ a b : SILValue, SILValue.lt a b = true ↔
        (a.getDef < b.getDef ∨
          (a.getDef = b.getDef ∧ a.getResultNumber < b.getResultNumber))) := by
  refine ⟨sil_beq_iff, ?_, ?_, ?_, sil_lt_iff⟩
  · intro a
    simp [SILValue.lt]
  · intro a b c hab hbc
    rw [sil_lt_iff] at hab hbc ⊢
    omega
  · intro a b
    rw [sil_lt_iff, sil_lt_iff, sil_beq_iff]
    omega

theorem claim_handle_eq_order_witness :
    SILValue.lt ⟨1, 0⟩ ⟨3, 1⟩ = true :=
  claim_handle_eq_order.2.2.1 ⟨1, 0⟩ ⟨2, 0⟩ ⟨3, 1⟩ (by decide) (by decide)

/-- C8: `ValueUseIterator::operator==` compares only the cursor pointers,
never the stored result-number filter: two filtered iterators are equal
iff they sit at the same operand, even when constructed with different
target result indices, and in particular any two terminal (null-cursor)
iterators are equal. -/
theorem claim_iterator_eq_cursor_only :
    (∀ a b : ValueUseIterator, ValueUseIterator.beq a b = true ↔ a.cur = b.cur)
    ∧ (∀ (c : Option Nat) (r1 r2 : Nat), ValueUseIterator.beq ⟨c, r1⟩ ⟨c, r2⟩ = true)
    ∧ (∀ r1 r2 : Nat, ValueUseIterator.beq ⟨none, r1⟩ ⟨none, r2⟩ = true) := by
  refine ⟨?_, ?_, ?_⟩ <;> intros <;> simp [ValueUseIterator.beq]

/-- C9: the `DenseMapInfo` hash of a handle depends only on the identity
pointer `getDef()` and ignores the result number: equal handles hash
equally, and two handles naming different results of the same identity
hash to the same value while `isEqual` still distinguishes them. -/
theorem claim_hash_ignores_result :
    (∀ a b : SILValue, SILValue.beq a b = true →
        DenseMapInfoSILValue.getHashValue a = DenseMapInfoSILValue.getHashValue b)
    ∧ (∀ V r1 r2 : Nat,
        (⟨V, r1⟩ : SILValue).getResultNumber ≠ (⟨V, r2⟩ : SILValue).getResultNumber →
        DenseMapInfoSILValue.getHashValue ⟨V, r1⟩
            = DenseMapInfoSILValue.getHashValue ⟨V, r2⟩
        ∧ DenseMapInfoSILValue.isEqual ⟨V, r1⟩ ⟨V, r2⟩ = false) := by
  constructor
  · intro a b hab
    have heq := (sil_beq_iff a b).mp hab
    simp [DenseMapInfoSILValue.getHashValue, heq.1]
  · intro V r1 r2 hne
    refine ⟨rfl, ?_⟩
    cases hbe : DenseMapInfoSILValue.isEqual ⟨V, r1⟩ ⟨V, r2⟩ with
    | false => rfl
    | true => exact absurd ((sil_beq_iff _ _).mp hbe).2 hne

theorem claim_hash_ignores_result_witness :
    DenseMapInfoSILValue.getHashValue ⟨5, 0⟩ = DenseMapInfoSILValue.getHashValue ⟨5, 1⟩
    ∧ DenseMapInfoSILValue.isEqual ⟨5, 0⟩ ⟨5, 1⟩ = false :=
  claim_hash_ignores_result.2 5 0 1 (by decide)

/-- C10: `SILValue::use_empty` (defined as `use_begin() == use_end()`) is
result-filtered: it returns `true` iff no operand in the identity's use
chain targets the handle's result number; on a value whose only use
targets result 0, the handle for result 1 reports an empty use list while
`ValueBase::use_empty` on the same identity reports non-empty. -/
theorem claim_use_empty_filtered :
    (∀ (s : SILState) (fuel : Nat) (v : SILValue),
        SILValue.use_empty s fuel v = true ↔
          ∀ o ∈ useListFrom s fuel (lookupFirstUse s v.getDef),
            resultOf s o ≠ v.getResultNumber)
    ∧ SILValue.use_empty stateA 5 ⟨1, 1⟩ = true
    ∧ SILValue.use_empty stateA 5 ⟨1, 0⟩ = false
    ∧ ValueBase.use_empty stateA 1 = false := by
  refine ⟨?_, by decide, by decide, by decide⟩
  intro s fuel v
  simp only [SILValue.use_empty, SILValue.use_begin, SILValue.use_end,
    ValueUseIterator.construct, ValueUseIterator.beq, skipToMatch_none]
  rw [skipToMatch_eq_head, filteredUseListFrom_eq_filter]
  simp [List.filter_eq_nil_iff, List.head?_eq_none_iff]

end SILModel
